import Mathlib

/-!
Verification development for the Script-Trimmer repository.

The definitions below are shallow embeddings of the Python sources:
`transcribe_segments.py` (timestamp validation, classifier-response handling,
timeline construction), `extract_video_segments.py` (filename sanitizing),
`modal_app.py` / `main.py` (audio chunking, YouTube acquisition strategies,
checkpointing, publish/cleanup policy).  Durations are modelled in whole
seconds (resp. milliseconds for the chunker, exactly as in the source);
the fractional part of float durations is immaterial to the properties
proved here.  Network calls (Whisper, the GPT classifier, yt-dlp, S3) are
opaque capabilities: their responses/outcomes are inputs to the embedded
functions, which model the repository's own handling of those responses.
-/

/-! ### Timestamp parsing (`transcribe_segments.py`, `_validate_timestamp`) -/

/-- Model of Python `str.split(sep)` for a single-character separator,
over the character list of a string.  `"".split(":") = [""]`,
`":".split(":") = ["", ""]`. -/
def splitOnChar (sep : Char) : List Char → List (List Char)
  | [] => [[]]
  | c :: cs =>
      if c = sep then [] :: splitOnChar sep cs
      else
        match splitOnChar sep cs with
        | [] => [[c]]
        | p :: ps => (c :: p) :: ps

/-- Decimal digit accumulator for `parseIntPy`. -/
def parseDigitsAux : List Char → Nat → Option Nat
  | [], acc => some acc
  | c :: cs, acc =>
      if c.isDigit then parseDigitsAux cs (acc * 10 + (c.toNat - 48)) else none

/-- Model of Python `int(s)` on the canonical numerals that occur here:
an optional leading minus sign followed by at least one decimal digit.
(Python's tolerance for surrounding whitespace, a leading plus sign and
underscore separators is not modelled; none of the claims depend on it.) -/
def parseIntPy (cs : List Char) : Option Int :=
  match cs with
  | [] => none
  | '-' :: rest =>
      match rest with
      | [] => none
      | _ => (parseDigitsAux rest 0).map (fun n => -(n : Int))
  | _ => (parseDigitsAux cs 0).map (fun n => (n : Int))

/-- `MM:SS` parsing as done by `_validate_timestamp` and by
`create_segment_json` (transcribe_segments.py lines 132-139, 394-398):
split on `:`, require exactly two integer fields, value is
`minutes * 60 + seconds`.  `none` models the `ValueError`/length-check
rejection paths. -/
def parseMMSS (s : String) : Option Int :=
  match splitOnChar ':' s.toList with
  | [p1, p2] =>
      match parseIntPy p1, parseIntPy p2 with
      | some m, some sec => some (m * 60 + sec)
      | _, _ => none
  | _ => none

/-- `_validate_timestamp` (transcribe_segments.py lines 128-151): parse both
strings as MM:SS; reject on parse failure, on `start < 0`, on
`end > chunk_duration`, and on `start >= end`. -/
def validate_timestamp (startStr endStr : String) (chunkDuration : Nat) : Bool :=
  match parseMMSS startStr, parseMMSS endStr with
  | some startSeconds, some endSeconds =>
      if startSeconds < 0 ∨ endSeconds > (chunkDuration : Int) then false
      else if startSeconds ≥ endSeconds then false
      else true
  | _, _ => false

/-! ### Classifier-response handling (`analyse_topic_gpt`,
`detect_speaker_student_interactions`) -/

/-- The JSON fields of one classifier item that the source reads.
`endStr` stands for the JSON key `end` (a Lean keyword). -/
structure ItemFields where
  title : Option String := none
  startStr : Option String := none
  endStr : Option String := none
  parentTopic : Option String := none
  interactionType : Option String := none
deriving DecidableEq, Repr

/-- One element of the parsed classifier JSON array: either not a JSON
object (skipped by the `isinstance(..., dict)` guard) or an object with
the fields above. -/
inductive JsonItem where
  | nonDict : JsonItem
  | dict (fields : ItemFields) : JsonItem
deriving DecidableEq, Repr

/-- The classifier's (cleaned) textual response, after markdown stripping:
not valid JSON, valid JSON that is not a list, or a JSON list. -/
inductive GptResponse where
  | invalidJson : GptResponse
  | nonList : GptResponse
  | list (items : List JsonItem) : GptResponse
deriving DecidableEq, Repr

/-- Python `f"{n:02d}"` for a natural number. -/
def pad2 (n : Nat) : String :=
  if n < 10 then "0" ++ toString n else toString n

/-- The string `f"{max_minutes}:{max_seconds:02d}"` built from the chunk
duration (transcribe_segments.py lines 154-155, 225): minutes are not
zero-padded, seconds are. -/
def formatMinSec (dur : Nat) : String :=
  toString (dur / 60) ++ ":" ++ pad2 (dur % 60)

/-- The fallback topic `{"title": "Unknown", "start": "00:00",
"end": f"{max_minutes}:{max_seconds:02d}"}` (lines 225, 228, 232, 241). -/
def fallbackItem (dur : Nat) : JsonItem :=
  JsonItem.dict { title := some "Unknown", startStr := some "00:00",
                  endStr := some (formatMinSec dur) }

/-- The per-item guard of `analyse_topic_gpt` (lines 214-223):
`isinstance(topic, dict) and "title" in topic` and
`_validate_timestamp(topic.get("start", "00:00"), topic.get("end", "00:00"),
chunk_duration)`. -/
def isValidatedTopic (dur : Nat) (it : JsonItem) : Bool :=
  match it with
  | JsonItem.nonDict => false
  | JsonItem.dict f =>
      match f.title with
      | none => false
      | some _ =>
          validate_timestamp (f.startStr.getD "00:00") (f.endStr.getD "00:00") dur

/-- `analyse_topic_gpt` (transcribe_segments.py lines 153-241), modelled on
its response handling: the prompt construction and the HTTP call are
opaque, so the effective classifier response is an input.  `none` models
the case in which every retry attempt raised (lines 234-241).  Invalid
JSON (line 229), non-list JSON (line 226) and a list whose items all fail
the guard (line 225) each also return the single fallback topic. -/
def analyse_topic_gpt (resp : Option GptResponse) (dur : Nat) : List JsonItem :=
  match resp with
  | none => [fallbackItem dur]
  | some GptResponse.invalidJson => [fallbackItem dur]
  | some GptResponse.nonList => [fallbackItem dur]
  | some (GptResponse.list items) =>
      let validated := items.filter (isValidatedTopic dur)
      if validated.isEmpty then [fallbackItem dur] else validated

/-- `detect_speaker_student_interactions` (lines 243-340), modelled the same
way: identical guard, but every failure path returns the empty list
(lines 327, 331, 340) - no fallback item. -/
def detect_speaker_student_interactions (resp : Option GptResponse) (dur : Nat) :
    List JsonItem :=
  match resp with
  | none => []
  | some GptResponse.invalidJson => []
  | some GptResponse.nonList => []
  | some (GptResponse.list items) => items.filter (isValidatedTopic dur)

/-! ### Timeline construction (`create_segment_json`) -/

/-- One timeline entry as appended by `create_segment_json`
(lines 409-421, 463-475).  The JSON also carries the local strings,
`parent_topic`/`interaction_type`, `filename`, `chunk_start` and
`chunk_end`; those fields are not referenced by any claim and are
omitted from the embedding. -/
structure TimelineEntry where
  title : String
  startTime : Int
  endTime : Int
  chunkNumber : Nat
  segmentType : String
deriving DecidableEq, Repr

/-- `global_start_offset = (chunk_number - 1) * 600` (line 369); the
nominal chunk duration of 600 seconds is hard-coded in the source,
independent of the actual chunk duration. -/
def globalStartOffset (chunkNumber : Nat) : Int :=
  ((chunkNumber : Int) - 1) * 600

/-- The clamp of line 401-403: `if end_seconds > chunk_duration:
end_seconds = chunk_duration`. -/
def clampEnd (endSeconds : Int) (dur : Nat) : Int :=
  if endSeconds > (dur : Int) then (dur : Int) else endSeconds

/-- The per-item body of `create_segment_json`'s entry loops
(lines 386-437 for topics, 440-491 for interactions): skip items that are
not objects with a title; parse the local `MM:SS` strings (defaults
`"00:00"`); on success clamp the end to the chunk duration and offset
both ends by `global_start_offset`; on a parse error append the fallback
entry spanning the whole chunk. -/
def entryOfItem (segType : String) (chunkNumber dur : Nat) (it : JsonItem) :
    Option TimelineEntry :=
  match it with
  | JsonItem.nonDict => none
  | JsonItem.dict f =>
      match f.title with
      | none => none
      | some t =>
          let sStr := f.startStr.getD "00:00"
          let eStr := f.endStr.getD "00:00"
          match parseMMSS sStr, parseMMSS eStr with
          | some sv, some ev =>
              some { title := t,
                     startTime := globalStartOffset chunkNumber + sv,
                     endTime := globalStartOffset chunkNumber + clampEnd ev dur,
                     chunkNumber := chunkNumber,
                     segmentType := segType }
          | _, _ =>
              some { title := t,
                     startTime := globalStartOffset chunkNumber,
                     endTime := globalStartOffset chunkNumber + (dur : Int),
                     chunkNumber := chunkNumber,
                     segmentType := segType }

/-- The data of one transcribed audio file as consumed by
`create_segment_json` (a file that was not skipped for a transcription
error or an empty segment list): the chunk number parsed from the
filename, the chunk duration (`segments[-1]["end"]`), and the effective
classifier responses of the two capability calls. -/
structure ChunkData where
  chunkNumber : Nat
  chunkDuration : Nat
  topicsResp : Option GptResponse
  interactionsResp : Option GptResponse
deriving DecidableEq, Repr

/-- `create_segment_json` (lines 342-505): per file, validate the topics
response and the interactions response, convert each surviving item to a
globally-timed entry; topics accumulate into `segment_json` and
interactions into `interaction_segments`, both in file order. -/
def createSegmentJson (chunks : List ChunkData) :
    List TimelineEntry × List TimelineEntry :=
  (chunks.flatMap fun cd =>
      (analyse_topic_gpt cd.topicsResp cd.chunkDuration).filterMap
        (entryOfItem "topic" cd.chunkNumber cd.chunkDuration),
   chunks.flatMap fun cd =>
      (detect_speaker_student_interactions cd.interactionsResp cd.chunkDuration).filterMap
        (entryOfItem "interaction" cd.chunkNumber cd.chunkDuration))

/-! ### Filename sanitizing (`extract_video_segments.py`, `sanitize_filename`) -/

/-- Negation of the character class `[<>:"/\\|?*]` removed by
`re.sub` in `sanitize_filename` (line 17). -/
def keepChar (c : Char) : Bool :=
  !(c = '<' || c = '>' || c = ':' || c = '"' || c = '/' || c = '\\' ||
    c = '|' || c = '?' || c = '*')

/-- The space replacement of line 19: `filename.replace(' ', '_')`. -/
def replaceSpace (c : Char) : Char :=
  if c = ' ' then '_' else c

/-- `sanitize_filename` (extract_video_segments.py lines 14-23): remove the
illegal characters, replace each space by one underscore, truncate to 100
characters. -/
def sanitize_filename (s : String) : String :=
  String.mk (((s.toList.filter keepChar).map replaceSpace).take 100)

/-! ### Audio chunking (`chunk_audio`, identical in `modal_app.py` lines
606-648 and `main.py` lines 809-847) -/

/-- Fuel-indexed model of Python `range(s, stop, step)`.  For a positive
`step` the loop runs `ceil((stop - s) / step) ≤ stop - s` times, so fuel
`stop - s` (supplied by `pyRange`) is always sufficient. -/
def rangeAux (step : Nat) : Nat → Nat → Nat → List Nat
  | 0, _, _ => []
  | fuel + 1, s, stop =>
      if s < stop then s :: rangeAux step fuel (s + step) stop else []

/-- Python `range(s, stop, step)` for a positive step. -/
def pyRange (s stop step : Nat) : List Nat :=
  rangeAux step (stop - s) s stop

/-- One chunk as materialized by `chunk_audio`: its 1-based number (from
the filename `chunk_{i+1:03d}_...`) and its start/end offsets in the
source audio (milliseconds). -/
structure AudioChunk where
  number : Nat
  startTime : Nat
  endTime : Nat
deriving DecidableEq, Repr

/-- `chunk_audio` (modal_app.py lines 606-648, main.py lines 809-847):
`for i, start_time in enumerate(range(0, total_duration, chunk_duration_ms)):
end_time = min(start_time + chunk_duration_ms, total_duration)`; the chunk
exported for index `i` is numbered `i + 1`.  (The call is made only when
the extracted audio's size exceeds the `MAX_AUDIO_SIZE_MB` threshold;
below it the audio is used as the single chunk unchanged.) -/
def chunk_audio (totalDuration chunkDurationMs : Nat) : List AudioChunk :=
  (pyRange 0 totalDuration chunkDurationMs).enum.map fun p =>
    ⟨p.1 + 1, p.2, min (p.2 + chunkDurationMs) totalDuration⟩

/-! ### YouTube acquisition (`download_youtube_video`, modal_app.py lines
388-604) -/

/-- The possible outcomes of attempting one download strategy, abstracting
the yt-dlp call: success with a file found, download finished but no file
found (lines 578-580), no usable video formats reported (lines 539-541),
the bot-detection failure signature (lines 584-586), the
unavailable/private failure signature (lines 587-589), or any other
download error (lines 590-592). -/
inductive StrategyOutcome where
  | success : StrategyOutcome
  | noFileFound : StrategyOutcome
  | noVideoFormats : StrategyOutcome
  | botDetection : StrategyOutcome
  | unavailable : StrategyOutcome
  | otherError : StrategyOutcome
deriving DecidableEq, Repr

/-- Control-flow result of one strategy body: return a path, fall through
to the next strategy, or propagate a raised exception. -/
inductive StepResult where
  | found : StepResult
  | nextStrategy : StepResult
  | raiseErr (msg : String) : StepResult
deriving DecidableEq, Repr

/-- The inner per-strategy logic (lines 520-592): bot detection and every
other non-permanent failure `continue` to the next strategy; the
unavailable/private signature raises a dedicated permanent-failure
exception (line 589). -/
def strategyStep : StrategyOutcome → StepResult
  | StrategyOutcome.success => StepResult.found
  | StrategyOutcome.noFileFound => StepResult.nextStrategy
  | StrategyOutcome.noVideoFormats => StepResult.nextStrategy
  | StrategyOutcome.botDetection => StepResult.nextStrategy
  | StrategyOutcome.unavailable =>
      StepResult.raiseErr
        "Video is unavailable or private. Please check the URL and try again."
  | StrategyOutcome.otherError => StepResult.nextStrategy

/-- The `except Exception` handler wrapping each whole strategy attempt
(lines 594-596): any exception raised inside the strategy body - including
the permanent-failure exception of line 589 - is logged and turns into
`continue`. -/
def perStrategyHandler : StepResult → StepResult
  | StepResult.raiseErr _ => StepResult.nextStrategy
  | r => r

/-- The strategy loop (line 517), 1-based as in the log messages.  Returns
the index of the strategy that produced the video (or `none`: the final
raise of line 600 is caught at line 602 and the function returns `None`)
together with the number of strategies that were invoked. -/
def downloadFrom : Nat → List StrategyOutcome → Option Nat × Nat
  | _, [] => (none, 0)
  | i, o :: rest =>
      match perStrategyHandler (strategyStep o) with
      | StepResult.found => (some i, 1)
      | _ =>
          let r := downloadFrom (i + 1) rest
          (r.1, r.2 + 1)

/-- `download_youtube_video`, abstracted over the outcome of each
configured strategy. -/
def download_youtube_video (strategies : List StrategyOutcome) : Option Nat × Nat :=
  downloadFrom 1 strategies

/-! ### Orchestrator stages and checkpointing (`process_video_background`,
modal_app.py lines 1787-1948) -/

/-- The stages executed by `process_video_background`, in source order. -/
inductive Stage where
  | cleanupPreviousFiles : Stage
  | downloadFromS3 : Stage
  | extractAudio : Stage
  | chunkAudioStage : Stage
  | transcribeAudio : Stage
  | analyzeTopics : Stage
  | saveCheckpointTranscription : Stage
  | runVideoSegmentExtraction : Stage
  | saveCheckpointSegments : Stage
  | uploadSegments : Stage
  | cleanupIntermediates : Stage
deriving DecidableEq, Repr

/-- The checkpoint record fields read on (re)start (lines 1794-1816);
`video_path`/`timestamp` are not consulted by the control flow modelled
here.  A corrupt or unreadable checkpoint file is modelled as `none`
(the `except` of line 1815 starts fresh). -/
structure Checkpoint where
  s3Url : String
  stage : String
deriving DecidableEq, Repr

/-- The stages executed *inside* the checkpoint branch (lines 1794-1816):
for a matching checkpoint at stage `transcription_completed` the branch
runs the video segment extraction (line 1808) and then simply falls
through; for `video_segments_completed` it only logs.  There is no
`return` and nothing is skipped. -/
def resumeSteps (cp : Option Checkpoint) (s3Url : String) : List Stage :=
  match cp with
  | none => []
  | some c =>
      if c.s3Url = s3Url then
        if c.stage = "transcription_completed" then [Stage.runVideoSegmentExtraction]
        else []
      else []

/-- The full stage trace of `process_video_background` (lines 1787-1948):
after the checkpoint branch, the function unconditionally cleans up
remnant files (line 1819, deleting `transcriptions.json` and
`segments.json`), downloads from S3, extracts audio, chunks it when the
size threshold is exceeded, transcribes, analyzes topics, saves the
transcription checkpoint, extracts video segments, saves the segments
checkpoint, and - when at least one segment was produced - uploads and
cleans up intermediates. -/
def process_video_background (cp : Option Checkpoint) (s3Url : String)
    (needsChunking hasSegments : Bool) : List Stage :=
  resumeSteps cp s3Url ++
  [Stage.cleanupPreviousFiles, Stage.downloadFromS3, Stage.extractAudio] ++
  (if needsChunking then [Stage.chunkAudioStage] else []) ++
  [Stage.transcribeAudio, Stage.analyzeTopics, Stage.saveCheckpointTranscription,
   Stage.runVideoSegmentExtraction, Stage.saveCheckpointSegments] ++
  (if hasSegments then [Stage.uploadSegments, Stage.cleanupIntermediates] else [])

/-- File-system operations relevant to checkpoint persistence. -/
inductive FsOp where
  | writeFile (path content : String) : FsOp
  | renameFile (src dst : String) : FsOp
deriving DecidableEq, Repr

/-- The file operations performed when the orchestrator persists a
checkpoint (modal_app.py lines 1899-1901 and 1932-1934): a single
`open("processing_checkpoint.json", "w")` followed by `json.dump` - one
direct write to the final path. -/
def saveCheckpointOps (content : String) : List FsOp :=
  [FsOp.writeFile "processing_checkpoint.json" content]

/-- The write-to-temp-then-rename pattern the claim describes: a write to
some other path followed by a rename onto the final path. -/
def isAtomicWritePattern (ops : List FsOp) (finalPath : String) : Prop :=
  ∃ tmp content, tmp ≠ finalPath ∧
    ops = [FsOp.writeFile tmp content, FsOp.renameFile tmp finalPath]

/-- Whether an operation sequence writes directly to a given path. -/
def writesDirectlyToFinalPath (ops : List FsOp) (p : String) : Bool :=
  ops.any fun op =>
    match op with
    | FsOp.writeFile q _ => q = p
    | FsOp.renameFile _ _ => false

/-- Crash semantics of a single operation: if the process dies after the
first `k` characters of a direct write to `path` reached the disk, the
file at `path` holds that prefix; a rename leaves `path`'s previous
content. -/
def contentAfterCrash (op : FsOp) (path : String) (k : Nat)
    (prev : Option String) : Option String :=
  match op with
  | FsOp.writeFile p c => if p = path then some (String.mk (c.toList.take k)) else prev
  | FsOp.renameFile _ _ => prev

/-! ### Publishing and cleanup (modal_app.py lines 331-372, 692-740,
1939-1948; main.py lines 126-167, 733-781, 994-1027) -/

/-- One cut segment artifact at publish time: whether the file still
exists (line 343) and whether its S3 upload succeeds (line 358). -/
structure SegmentUpload where
  name : String
  fileExists : Bool
  uploadOk : Bool
deriving DecidableEq, Repr

/-- `upload_video_segments_to_s3` (modal_app.py lines 331-372): uploads
each existing segment; per-segment failures are logged and skipped; the
returned list holds one record per *successful* upload. -/
def upload_video_segments_to_s3 (segments : List SegmentUpload) : List String :=
  (segments.filter fun sg => sg.fileExists && sg.uploadOk).map SegmentUpload.name

/-- The files `cleanup_intermediate_files` deletes (modal_app.py lines
692-740, main.py lines 733-781): the intermediate JSON metadata, the
audio chunk files of the output directory, the original video file and
the extracted audio file. -/
def cleanup_intermediate_files (videoPath audioPath : String)
    (chunkFiles : List String) : List String :=
  ["transcriptions.json", "segments.json"] ++ chunkFiles ++ [videoPath, audioPath]

/-- The publish/cleanup tail of `process_video_background` (lines
1939-1948): upload only if some segments exist, and delete the local
intermediates exactly when `all_segments` is non-empty - the decision
reads the extraction result, not the upload result.  Returns
(successful uploads, deleted files). -/
def publishAndCleanup (allSegments : List SegmentUpload)
    (videoPath audioPath : String) (chunkFiles : List String) :
    List String × List String :=
  ((if allSegments.isEmpty then [] else upload_video_segments_to_s3 allSegments),
   (if allSegments.isEmpty then [] else
      cleanup_intermediate_files videoPath audioPath chunkFiles))

/-! ### Theorems -/

lemma validate_timestamp_iff (s e : String) (dur : Nat) :
    validate_timestamp s e dur = true ↔
      ∃ sv ev : Int, parseMMSS s = some sv ∧ parseMMSS e = some ev ∧
        0 ≤ sv ∧ sv < ev ∧ ev ≤ (dur : Int) := by
  unfold validate_timestamp
  cases hs : parseMMSS s with
  | none => simp [hs]
  | some sv =>
      cases he : parseMMSS e with
      | none => simp [hs, he]
      | some ev =>
          simp only [hs, he]
          constructor
          · intro h
            by_cases h1 : sv < 0 ∨ ev > (dur : Int)
            · simp [h1] at h
            · by_cases h2 : sv ≥ ev
              · simp [h1, h2] at h
              · push_neg at h1 h2
                exact ⟨sv, ev, rfl, rfl, h1.1, h2, h1.2⟩
          · rintro ⟨sv', ev', hs', he', h0, hlt, hle⟩
            have hsv : sv = sv' := Option.some.inj hs'
            have hev : ev = ev' := Option.some.inj he'
            subst hsv; subst hev
            rw [if_neg (by push_neg; exact ⟨h0, hle⟩), if_neg (not_le.mpr hlt)]

lemma mem_analyse_topic_gpt {resp : Option GptResponse} {dur : Nat} {it : JsonItem}
    (h : it ∈ analyse_topic_gpt resp dur) :
    it = fallbackItem dur ∨ isValidatedTopic dur it = true := by
  cases resp with
  | none => simp [analyse_topic_gpt] at h; exact Or.inl h
  | some r =>
      cases r with
      | invalidJson => simp [analyse_topic_gpt] at h; exact Or.inl h
      | nonList => simp [analyse_topic_gpt] at h; exact Or.inl h
      | list items =>
          simp only [analyse_topic_gpt] at h
          split at h
          · simp at h; exact Or.inl h
          · exact Or.inr (List.of_mem_filter h)

lemma mem_detect_interactions {resp : Option GptResponse} {dur : Nat} {it : JsonItem}
    (h : it ∈ detect_speaker_student_interactions resp dur) :
    isValidatedTopic dur it = true := by
  cases resp with
  | none => simp [detect_speaker_student_interactions] at h
  | some r =>
      cases r with
      | invalidJson => simp [detect_speaker_student_interactions] at h
      | nonList => simp [detect_speaker_student_interactions] at h
      | list items =>
          simp only [detect_speaker_student_interactions] at h
          exact List.of_mem_filter h

lemma parseMMSS_zero : parseMMSS "00:00" = some 0 := by decide

lemma entry_bounds {segType : String} {c dur : Nat} {it : JsonItem} {en : TimelineEntry}
    (hit : it = fallbackItem dur ∨ isValidatedTopic dur it = true)
    (hen : entryOfItem segType c dur it = some en) :
    en.chunkNumber = c ∧ globalStartOffset c ≤ en.startTime ∧
      en.startTime ≤ globalStartOffset c + (dur : Int) := by
  rcases hit with hfb | hval
  · subst hfb
    cases hpe : parseMMSS (formatMinSec dur) with
    | none =>
        simp only [entryOfItem, fallbackItem, Option.getD, parseMMSS_zero, hpe] at hen
        cases hen
        refine ⟨rfl, le_refl _, ?_⟩
        simp
    | some v =>
        simp only [entryOfItem, fallbackItem, Option.getD, parseMMSS_zero, hpe] at hen
        cases hen
        refine ⟨rfl, by simp, by simp⟩
  · cases it with
    | nonDict => simp [isValidatedTopic] at hval
    | dict f =>
        cases htitle : f.title with
        | none => rw [isValidatedTopic, htitle] at hval; simp at hval
        | some t =>
            rw [isValidatedTopic, htitle] at hval
            rw [validate_timestamp_iff] at hval
            obtain ⟨sv, ev, hsv, hev, h0, hlt, hle⟩ := hval
            simp only [entryOfItem, htitle, hsv, hev] at hen
            cases hen
            refine ⟨rfl, by simpa using h0, ?_⟩
            have : sv ≤ (dur : Int) := le_of_lt (lt_of_lt_of_le hlt hle)
            simpa using this

/-- Claim C1, counterexample.  The claim says an item whose `end` exceeds the
chunk duration is kept with `end` clamped and still appears in the
timeline.  In the source, `_validate_timestamp` returns `False` whenever
`end_seconds > chunk_duration` (line 142), so such an item is filtered
out by `analyse_topic_gpt` and never reaches the timeline: for a chunk of
60 seconds, the item `B` with `end = "01:30"` is rejected and the
timeline built from that chunk contains only the valid item `A`. -/
theorem C1_clamp_counterexample :
    validate_timestamp "00:00" "01:30" 60 = false ∧
    analyse_topic_gpt (some (GptResponse.list
        [JsonItem.dict ⟨some "A", some "00:10", some "00:50", none, none⟩,
         JsonItem.dict ⟨some "B", some "00:00", some "01:30", none, none⟩])) 60 =
      [JsonItem.dict ⟨some "A", some "00:10", some "00:50", none, none⟩] ∧
    (createSegmentJson [⟨1, 60,
        some (GptResponse.list
          [JsonItem.dict ⟨some "A", some "00:10", some "00:50", none, none⟩,
           JsonItem.dict ⟨some "B", some "00:00", some "01:30", none, none⟩]),
        some (GptResponse.list [])⟩]).1.map TimelineEntry.title = ["A"] := by
  refine ⟨by decide, by decide, by decide⟩

/-- Claim C1, amended.  The timestamp validation parses `start`/`end` as
MM:SS and accepts exactly when both parse, `start ≥ 0`, `start < end` and
`end ≤ chunk duration`; an item whose `end` exceeds the chunk duration is
rejected (not clamped), and consequently the downstream clamp of
`create_segment_json` leaves every validated item's `end` unchanged. -/
theorem C1_validation_rejects_long_end (s e : String) (dur : Nat) :
    (validate_timestamp s e dur = true ↔
      ∃ sv ev : Int, parseMMSS s = some sv ∧ parseMMSS e = some ev ∧
        0 ≤ sv ∧ sv < ev ∧ ev ≤ (dur : Int)) ∧
    (∀ sv ev : Int, parseMMSS s = some sv → parseMMSS e = some ev →
      (dur : Int) < ev → validate_timestamp s e dur = false) ∧
    (validate_timestamp s e dur = true →
      ∀ ev : Int, parseMMSS e = some ev → clampEnd ev dur = ev) := by
  refine ⟨validate_timestamp_iff s e dur, ?_, ?_⟩
  · intro sv ev hs he hlt
    cases hv : validate_timestamp s e dur with
    | false => rfl
    | true =>
        obtain ⟨sv', ev', hs', he', _, _, hle⟩ := (validate_timestamp_iff s e dur).mp hv
        rw [he] at he'
        have := Option.some.inj he'
        omega
  · intro hv ev he
    obtain ⟨sv', ev', hs', he', _, _, hle⟩ := (validate_timestamp_iff s e dur).mp hv
    rw [he] at he'
    have hevv : ev' = ev := (Option.some.inj he').symm
    subst hevv
    unfold clampEnd
    rw [if_neg (not_lt.mpr hle)]

/-- Claim C1, witness for the amended theorem: a validated item
(`"00:10"`-`"00:50"` in a 60-second chunk) is accepted and its end is left
unchanged by the clamp, while the item ending at `"01:30"` is rejected. -/
theorem C1_validation_rejects_long_end_witness :
    validate_timestamp "00:10" "00:50" 60 = true ∧ clampEnd 50 60 = 50 ∧
    validate_timestamp "00:00" "01:30" 60 = false := by
  refine ⟨by decide, ?_, ?_⟩
  · exact (C1_validation_rejects_long_end "00:10" "00:50" 60).2.2 (by decide) 50 (by decide)
  · exact (C1_validation_rejects_long_end "00:00" "01:30" 60).2.1 0 90 (by decide)
      (by decide) (by decide)

/-- Claim C9: the topic analysis always returns a non-empty list, and it
returns exactly the single fallback topic (titled `"Unknown"`, from
`"00:00"` to the formatted full chunk duration) not only when every retry
attempt raised, but also whenever the classifier response is not valid
JSON, is not a JSON list, or is a list in which every item fails the
validation guard. -/
theorem C9_fallback_nonempty (resp : Option GptResponse) (dur : Nat) :
    analyse_topic_gpt resp dur ≠ [] ∧
    (resp = none ∨ resp = some GptResponse.invalidJson ∨
        resp = some GptResponse.nonList ∨
        (∃ l, resp = some (GptResponse.list l) ∧
          l.filter (isValidatedTopic dur) = []) →
      analyse_topic_gpt resp dur = [fallbackItem dur]) := by
  constructor
  · cases resp with
    | none => simp [analyse_topic_gpt]
    | some r =>
        cases r with
        | invalidJson => simp [analyse_topic_gpt]
        | nonList => simp [analyse_topic_gpt]
        | list items =>
            by_cases hemp : (items.filter (isValidatedTopic dur)).isEmpty
            · simp [analyse_topic_gpt, hemp]
            · simp only [analyse_topic_gpt, if_neg hemp]
              simpa [List.isEmpty_iff] using hemp
  · intro hcase
    rcases hcase with h | h | h | ⟨l, hl, hf⟩
    · subst h; rfl
    · subst h; rfl
    · subst h; rfl
    · subst hl; simp [analyse_topic_gpt, hf]

/-- Claim C9, witness: for an invalid-JSON response and a 90-second chunk
the analysis returns exactly the fallback topic `Unknown` from `"00:00"`
to `"1:30"` (the formatted full chunk duration). -/
theorem C9_fallback_nonempty_witness :
    analyse_topic_gpt (some GptResponse.invalidJson) 90 =
      [JsonItem.dict ⟨some "Unknown", some "00:00", some "1:30", none, none⟩] := by
  have h := (C9_fallback_nonempty (some GptResponse.invalidJson) 90).2
    (Or.inr (Or.inl rfl))
  exact h.trans (by decide)

/-- Claim C7: for an item with parsed local timestamps `sv`/`ev` (seconds)
whose end does not exceed the chunk duration (every validated item is of
this form), the timeline entry built by `create_segment_json` carries
`global_start = (chunk_number - 1) * 600 + sv` and
`global_end = (chunk_number - 1) * 600 + ev`, with the hard-coded nominal
chunk duration of 600 seconds used in the offset regardless of the actual
chunk duration `dur`. -/
theorem C7_global_timestamps (segType : String) (c dur : Nat) (t : String)
    (p i : Option String) (sStr eStr : String) (sv ev : Int)
    (hs : parseMMSS sStr = some sv) (he : parseMMSS eStr = some ev)
    (hev : ev ≤ (dur : Int)) :
    entryOfItem segType c dur (JsonItem.dict ⟨some t, some sStr, some eStr, p, i⟩) =
      some { title := t,
             startTime := ((c : Int) - 1) * 600 + sv,
             endTime := ((c : Int) - 1) * 600 + ev,
             chunkNumber := c,
             segmentType := segType } := by
  simp only [entryOfItem, Option.getD_some, hs, he]
  rw [clampEnd, if_neg (not_lt.mpr hev)]
  simp [globalStartOffset]

/-- Claim C7, witness: the spec's example - a topic `"01:00"`-`"03:00"`
from chunk 2 yields `global_start = 660` and `global_end = 780`. -/
theorem C7_global_timestamps_witness :
    entryOfItem "topic" 2 600
        (JsonItem.dict ⟨some "T", some "01:00", some "03:00", none, none⟩) =
      some { title := "T", startTime := 660, endTime := 780,
             chunkNumber := 2, segmentType := "topic" } := by
  have h := C7_global_timestamps "topic" 2 600 "T" none none "01:00" "03:00" 60 180
    (by decide) (by decide) (by decide)
  exact h.trans (by decide)

lemma mem_createSegmentJson_bounds {chunks : List ChunkData} {en : TimelineEntry}
    (h : en ∈ (createSegmentJson chunks).1 ∨ en ∈ (createSegmentJson chunks).2) :
    ∃ cd ∈ chunks, en.chunkNumber = cd.chunkNumber ∧
      globalStartOffset cd.chunkNumber ≤ en.startTime ∧
      en.startTime ≤ globalStartOffset cd.chunkNumber + (cd.chunkDuration : Int) := by
  rcases h with h | h
  · simp only [createSegmentJson] at h
    obtain ⟨cd, hcd, hmem⟩ := List.mem_flatMap.mp h
    obtain ⟨it, hit, hen⟩ := List.mem_filterMap.mp hmem
    have hb := entry_bounds (mem_analyse_topic_gpt hit) hen
    exact ⟨cd, hcd, hb.1, hb.2.1, hb.2.2⟩
  · simp only [createSegmentJson] at h
    obtain ⟨cd, hcd, hmem⟩ := List.mem_flatMap.mp h
    obtain ⟨it, hit, hen⟩ := List.mem_filterMap.mp hmem
    have hb := entry_bounds (Or.inr (mem_detect_interactions hit)) hen
    exact ⟨cd, hcd, hb.1, hb.2.1, hb.2.2⟩

/-- Claim C8: for two timeline entries of the same kind (both in the topics
list or both in the interactions list) built from chunks `i < j`, the
entry from chunk `i` has `global_start` at most that of the entry from
chunk `j`.  The hypotheses record the pipeline invariants under which the
entries are produced: every chunk's duration is at most the nominal 600
seconds (the chunker never emits a longer chunk) and chunk numbers are
1-based. -/
theorem C8_timeline_monotone (chunks : List ChunkData)
    (hdur : ∀ cd ∈ chunks, cd.chunkDuration ≤ 600)
    (hnum : ∀ cd ∈ chunks, 1 ≤ cd.chunkNumber)
    (a b : TimelineEntry)
    (hmem : (a ∈ (createSegmentJson chunks).1 ∧ b ∈ (createSegmentJson chunks).1) ∨
            (a ∈ (createSegmentJson chunks).2 ∧ b ∈ (createSegmentJson chunks).2))
    (hij : a.chunkNumber < b.chunkNumber) :
    a.startTime ≤ b.startTime := by
  have ha : a ∈ (createSegmentJson chunks).1 ∨ a ∈ (createSegmentJson chunks).2 := by
    rcases hmem with ⟨h, _⟩ | ⟨h, _⟩
    · exact Or.inl h
    · exact Or.inr h
  have hb : b ∈ (createSegmentJson chunks).1 ∨ b ∈ (createSegmentJson chunks).2 := by
    rcases hmem with ⟨_, h⟩ | ⟨_, h⟩
    · exact Or.inl h
    · exact Or.inr h
  obtain ⟨cda, hcda, hna, hla, hua⟩ := mem_createSegmentJson_bounds ha
  obtain ⟨cdb, hcdb, hnb, hlb, _⟩ := mem_createSegmentJson_bounds hb
  have hda := hdur cda hcda
  have h1a := hnum cda hcda
  have h1b := hnum cdb hcdb
  rw [hna, hnb] at hij
  simp only [globalStartOffset] at hla hua hlb
  omega

/-- Claim C8, witness: two one-topic chunks numbered 1 and 2 produce topic
entries whose global starts are in order (10 from chunk 1, 660 from
chunk 2). -/
theorem C8_timeline_monotone_witness :
    (⟨"A", 10, 50, 1, "topic"⟩ : TimelineEntry) ∈
      (createSegmentJson
        [⟨1, 600, some (GptResponse.list
            [JsonItem.dict ⟨some "A", some "00:10", some "00:50", none, none⟩]),
          some (GptResponse.list [])⟩,
         ⟨2, 600, some (GptResponse.list
            [JsonItem.dict ⟨some "B", some "01:00", some "03:00", none, none⟩]),
          some (GptResponse.list [])⟩]).1 ∧
    (⟨"B", 660, 780, 2, "topic"⟩ : TimelineEntry) ∈
      (createSegmentJson
        [⟨1, 600, some (GptResponse.list
            [JsonItem.dict ⟨some "A", some "00:10", some "00:50", none, none⟩]),
          some (GptResponse.list [])⟩,
         ⟨2, 600, some (GptResponse.list
            [JsonItem.dict ⟨some "B", some "01:00", some "03:00", none, none⟩]),
          some (GptResponse.list [])⟩]).1 ∧
    (⟨"A", 10, 50, 1, "topic"⟩ : TimelineEntry).startTime ≤
      (⟨"B", 660, 780, 2, "topic"⟩ : TimelineEntry).startTime := by
  refine ⟨by decide, by decide, ?_⟩
  exact C8_timeline_monotone
    [⟨1, 600, some (GptResponse.list
        [JsonItem.dict ⟨some "A", some "00:10", some "00:50", none, none⟩]),
      some (GptResponse.list [])⟩,
     ⟨2, 600, some (GptResponse.list
        [JsonItem.dict ⟨some "B", some "01:00", some "03:00", none, none⟩]),
      some (GptResponse.list [])⟩]
    (by decide) (by decide) _ _ (Or.inl ⟨by decide, by decide⟩) (by decide)

lemma rangeAux_eq (step : Nat) (hstep : 0 < step) :
    ∀ (fuel s stop : Nat), stop - s ≤ fuel →
      rangeAux step fuel s stop =
        (List.range ((stop - s + step - 1) / step)).map (fun k => s + k * step) := by
  intro fuel
  induction fuel with
  | zero =>
      intro s stop h
      have h0 : stop - s = 0 := by omega
      rw [h0]
      simp [rangeAux, Nat.div_eq_of_lt (show step - 1 < step by omega)]
  | succ fuel ih =>
      intro s stop h
      by_cases hs : s < stop
      · rw [rangeAux, if_pos hs, ih (s + step) stop (by omega)]
        have harith : (stop - s + step - 1) / step =
            (stop - (s + step) + step - 1) / step + 1 := by
          by_cases hcase : s + step ≤ stop
          · have e1 : stop - s + step - 1 = (stop - s - 1) + step := by omega
            have e2 : stop - (s + step) + step - 1 = stop - s - 1 := by omega
            rw [e1, e2, Nat.add_div_right _ hstep]
          · have e1 : stop - s + step - 1 = (stop - s - 1) + step := by omega
            have e2 : stop - (s + step) + step - 1 = 0 + step - 1 := by omega
            rw [e1, e2, Nat.add_div_right _ hstep,
              Nat.div_eq_of_lt (show stop - s - 1 < step by omega),
              Nat.div_eq_of_lt (show 0 + step - 1 < step by omega)]
        rw [harith, List.range_succ_eq_map, List.map_cons, List.map_map]
        congr 1
        · omega
        · congr 1
          funext k
          simp [Function.comp]
          ring
      · rw [rangeAux, if_neg hs]
        have h0 : stop - s = 0 := by omega
        rw [h0]
        simp [Nat.div_eq_of_lt (show step - 1 < step by omega)]

lemma pyRange_eq (L D : Nat) (hD : 0 < D) :
    pyRange 0 L D = (List.range ((L + D - 1) / D)).map (fun k => k * D) := by
  unfold pyRange
  rw [rangeAux_eq D hD (L - 0) 0 L (by omega)]
  simp

lemma enumFrom_map {α β : Type} (f : α → β) :
    ∀ (l : List α) (n : Nat),
      List.enumFrom n (l.map f) = (List.enumFrom n l).map (fun p => (p.1, f p.2)) := by
  intro l
  induction l with
  | nil => intro n; rfl
  | cons a l ih => intro n; simp [List.enumFrom, ih]

lemma enum_map {α β : Type} (f : α → β) (l : List α) :
    (l.map f).enum = l.enum.map (fun p => (p.1, f p.2)) := by
  simpa [List.enum] using enumFrom_map f l 0

lemma zip_self_eq_map {α : Type} : ∀ (l : List α), l.zip l = l.map (fun a => (a, a)) := by
  intro l
  induction l with
  | nil => rfl
  | cons a l ih => simp [ih]

lemma enum_range (n : Nat) :
    (List.range n).enum = (List.range n).map (fun k => (k, k)) := by
  rw [List.enum_eq_zip_range, List.length_range]
  exact zip_self_eq_map _

lemma chunk_audio_eq (L D : Nat) (hD : 0 < D) :
    chunk_audio L D =
      (List.range ((L + D - 1) / D)).map
        (fun k => ⟨k + 1, k * D, min (k * D + D) L⟩) := by
  unfold chunk_audio
  rw [pyRange_eq L D hD, enum_map, enum_range, List.map_map, List.map_map]
  rfl

/-- Claim C6: for audio of positive total length `L` chunked with positive
nominal duration `D` (the source computes the same
`total_chunks = (L + D - 1) // D`), the produced list has exactly
`ceil(L/D)` chunks, the chunk at index `k` is numbered `k + 1` and starts
at `k * D` (so the chunks are numbered `1..n` in order), every chunk but
the last spans exactly `D`, and the last spans `L - (n - 1) * D`. -/
theorem C6_chunk_partition (L D : Nat) (hL : 0 < L) (hD : 0 < D) :
    (chunk_audio L D).length = (L + D - 1) / D ∧
    (∀ k (h : k < (chunk_audio L D).length),
        ((chunk_audio L D).get ⟨k, h⟩).number = k + 1 ∧
        ((chunk_audio L D).get ⟨k, h⟩).startTime = k * D) ∧
    (∀ k (h : k < (chunk_audio L D).length), k + 1 < (chunk_audio L D).length →
        ((chunk_audio L D).get ⟨k, h⟩).endTime -
          ((chunk_audio L D).get ⟨k, h⟩).startTime = D) ∧
    (∀ (h : (L + D - 1) / D - 1 < (chunk_audio L D).length),
        ((chunk_audio L D).get ⟨(L + D - 1) / D - 1, h⟩).endTime -
          ((chunk_audio L D).get ⟨(L + D - 1) / D - 1, h⟩).startTime =
        L - ((L + D - 1) / D - 1) * D) := by
  have hmaster := chunk_audio_eq L D hD
  have hn' : (L + D - 1) / D = (L - 1) / D + 1 := by
    have e : L + D - 1 = (L - 1) + D := by omega
    rw [e, Nat.add_div_right _ hD]
  have hlen : (chunk_audio L D).length = (L + D - 1) / D := by
    rw [hmaster]; simp
  have hget : ∀ k (h : k < (chunk_audio L D).length),
      (chunk_audio L D).get ⟨k, h⟩ = ⟨k + 1, k * D, min (k * D + D) L⟩ := by
    intro k h
    simp only [hmaster, List.get_eq_getElem, List.getElem_map, List.getElem_range]
  refine ⟨hlen, ?_, ?_, ?_⟩
  · intro k h
    rw [hget k h]
    exact ⟨rfl, rfl⟩
  · intro k h hk1
    rw [hget k h]
    have hq : k + 1 ≤ (L - 1) / D := by
      rw [hlen, hn'] at hk1
      omega
    have h1 : (k + 1) * D ≤ (L - 1) / D * D := Nat.mul_le_mul_right D hq
    have h2 : (L - 1) / D * D ≤ L - 1 := Nat.div_mul_le_self _ _
    have e1 : (k + 1) * D = k * D + D := by ring
    rw [e1] at h1
    have h3 : k * D + D ≤ L := by
      generalize k * D = A at h1 ⊢
      generalize (L - 1) / D * D = B at h1 h2
      omega
    simp only [AudioChunk.endTime, AudioChunk.startTime]
    rw [min_eq_left h3]
    omega
  · intro h
    rw [hget _ h]
    have e : (L + D - 1) / D - 1 = (L - 1) / D := by omega
    rw [e]
    have hdm := Nat.div_add_mod (L - 1) D
    have hml : (L - 1) % D < D := Nat.mod_lt _ hD
    have hLe : L ≤ (L - 1) / D * D + D := by
      have e2 : (L - 1) / D * D = D * ((L - 1) / D) := by ring
      rw [e2]
      generalize D * ((L - 1) / D) = A at hdm ⊢
      omega
    simp only [AudioChunk.endTime, AudioChunk.startTime]
    rw [min_eq_right hLe]

/-- Claim C6, witness: the spec's example `L = 1500`, `D = 600` yields three
chunks `[0,600), [600,1200), [1200,1500)` numbered 1-3, with durations
600, 600 and 300. -/
theorem C6_chunk_partition_witness :
    (chunk_audio 1500 600).length = 3 ∧
    chunk_audio 1500 600 = [⟨1, 0, 600⟩, ⟨2, 600, 1200⟩, ⟨3, 1200, 1500⟩] := by
  refine ⟨?_, by decide⟩
  have h := (C6_chunk_partition 1500 600 (by decide) (by decide)).1
  simpa using h

/-- Claim C2 (code bug).  Transient signatures do move to the next strategy
and a success stops the loop (last two conjuncts: with outcomes
`[botDetection, success]` resp. `[botDetection, success, success]` the
video comes from strategy 2 and exactly 2 strategies are invoked).  But
the permanent unavailable/private signature does not abort acquisition:
the dedicated exception raised at modal_app.py line 589 is caught by the
per-strategy `except` of line 594, which continues with the next
strategy, so with outcomes `[unavailable, success]` strategy 2 is still
invoked and succeeds. -/
theorem C2_permanent_failure_not_aborting :
    strategyStep StrategyOutcome.unavailable =
      StepResult.raiseErr
        "Video is unavailable or private. Please check the URL and try again." ∧
    perStrategyHandler (StepResult.raiseErr
        "Video is unavailable or private. Please check the URL and try again.") =
      StepResult.nextStrategy ∧
    download_youtube_video [StrategyOutcome.unavailable, StrategyOutcome.success] =
      (some 2, 2) ∧
    download_youtube_video [StrategyOutcome.botDetection, StrategyOutcome.success] =
      (some 2, 2) ∧
    download_youtube_video [StrategyOutcome.botDetection, StrategyOutcome.success,
      StrategyOutcome.success] = (some 2, 2) := by
  refine ⟨rfl, rfl, by decide, by decide, by decide⟩

/-- Claim C3 (code bug).  With a checkpoint recorded after the transcribing
stage for the same source, the job does not resume at the recorded stage:
the checkpoint branch runs one extra segment extraction and then the full
pipeline executes unchanged (first conjunct), so transcription, the S3
download and the remnant-file cleanup (which deletes the intermediates a
resume would reuse) are all re-executed; and a checkpoint at
`video_segments_completed` changes the executed stages not at all (last
conjunct). -/
theorem C3_checkpoint_resume_recomputes :
    process_video_background
        (some ⟨"s3://bucket/v.mp4", "transcription_completed"⟩)
        "s3://bucket/v.mp4" true true =
      Stage.runVideoSegmentExtraction ::
        process_video_background none "s3://bucket/v.mp4" true true ∧
    Stage.transcribeAudio ∈ process_video_background
        (some ⟨"s3://bucket/v.mp4", "transcription_completed"⟩)
        "s3://bucket/v.mp4" true true ∧
    Stage.downloadFromS3 ∈ process_video_background
        (some ⟨"s3://bucket/v.mp4", "transcription_completed"⟩)
        "s3://bucket/v.mp4" true true ∧
    Stage.cleanupPreviousFiles ∈ process_video_background
        (some ⟨"s3://bucket/v.mp4", "transcription_completed"⟩)
        "s3://bucket/v.mp4" true true ∧
    process_video_background
        (some ⟨"s3://bucket/v.mp4", "video_segments_completed"⟩)
        "s3://bucket/v.mp4" true true =
      process_video_background none "s3://bucket/v.mp4" true true := by
  refine ⟨by decide, by decide, by decide, by decide, by decide⟩

/-- Claim C4, counterexample: the checkpoint persistence is a single direct
write to `processing_checkpoint.json`; it is not the write-to-temp-then-
rename pattern the claim describes. -/
theorem C4_not_atomic_counterexample :
    writesDirectlyToFinalPath (saveCheckpointOps "{}")
      "processing_checkpoint.json" = true ∧
    ¬ isAtomicWritePattern (saveCheckpointOps "{}") "processing_checkpoint.json" := by
  refine ⟨by decide, ?_⟩
  rintro ⟨tmp, content, hne, heq⟩
  have := congrArg List.length heq
  simp [saveCheckpointOps] at this

/-- Claim C4, amended: after the transcribing stage and after the
segment-extraction stage the orchestrator persists the checkpoint with a
single direct `open(..., "w")` write to the final path - no temporary
file and no rename - so a crash after `k` characters have reached the
disk leaves the checkpoint file holding a torn prefix of the record. -/
theorem C4_checkpoint_direct_write (content : String) :
    saveCheckpointOps content =
      [FsOp.writeFile "processing_checkpoint.json" content] ∧
    ¬ isAtomicWritePattern (saveCheckpointOps content)
        "processing_checkpoint.json" ∧
    ∀ k, contentAfterCrash (FsOp.writeFile "processing_checkpoint.json" content)
        "processing_checkpoint.json" k none =
      some (String.mk (content.toList.take k)) := by
  refine ⟨rfl, ?_, ?_⟩
  · rintro ⟨tmp, c, hne, heq⟩
    have := congrArg List.length heq
    simp [saveCheckpointOps] at this
  · intro k
    simp [contentAfterCrash]

/-- Claim C5, counterexample: one segment was extracted but its upload
fails, so zero uploads succeed - yet the intermediates (metadata, chunk
file, original video, extracted audio) are all deleted, because the
cleanup decision reads only whether `all_segments` is non-empty. -/
theorem C5_cleanup_despite_failed_uploads :
    (publishAndCleanup [⟨"video_segments/01_Topic.mp4", true, false⟩]
        "uploads/source.mp4" "output/audio.mp3"
        ["output/chunk_001_audio.mp3"]).1 = [] ∧
    (publishAndCleanup [⟨"video_segments/01_Topic.mp4", true, false⟩]
        "uploads/source.mp4" "output/audio.mp3"
        ["output/chunk_001_audio.mp3"]).2 =
      ["transcriptions.json", "segments.json", "output/chunk_001_audio.mp3",
       "uploads/source.mp4", "output/audio.mp3"] := by
  refine ⟨by decide, by decide⟩

/-- Claim C5, amended: the local intermediates are deleted exactly when at
least one cut artifact was successfully *extracted* (the segment list is
non-empty), independently of upload success; when zero segments were
extracted every intermediate is retained. -/
theorem C5_cleanup_keyed_to_extraction (allSegments : List SegmentUpload)
    (videoPath audioPath : String) (chunkFiles : List String) :
    ((publishAndCleanup allSegments videoPath audioPath chunkFiles).2 = [] ↔
      allSegments = []) ∧
    (allSegments ≠ [] →
      (publishAndCleanup allSegments videoPath audioPath chunkFiles).2 =
        cleanup_intermediate_files videoPath audioPath chunkFiles) := by
  constructor
  · constructor
    · intro h
      by_cases he : allSegments.isEmpty
      · exact List.isEmpty_iff.mp he
      · exfalso
        simp [publishAndCleanup, he, cleanup_intermediate_files] at h
    · intro h
      subst h
      rfl
  · intro h
    have he : allSegments.isEmpty = false := by
      cases allSegments with
      | nil => exact absurd rfl h
      | cons a l => rfl
    simp [publishAndCleanup, he]

/-- Claim C5, witness for the amended theorem: with one successfully
extracted segment the intermediates are deleted; with no extracted
segments nothing is deleted. -/
theorem C5_cleanup_keyed_to_extraction_witness :
    (publishAndCleanup [⟨"01_Topic.mp4", true, true⟩] "v.mp4" "a.mp3" []).2 =
      cleanup_intermediate_files "v.mp4" "a.mp3" [] ∧
    (publishAndCleanup [] "v.mp4" "a.mp3" []).2 = [] := by
  constructor
  · exact (C5_cleanup_keyed_to_extraction [⟨"01_Topic.mp4", true, true⟩]
      "v.mp4" "a.mp3" []).2 (by decide)
  · exact (C5_cleanup_keyed_to_extraction [] "v.mp4" "a.mp3" []).1.mpr rfl

lemma filter_keepChar_replicate_space (n : Nat) :
    (List.replicate n ' ').filter keepChar = List.replicate n ' ' := by
  induction n with
  | zero => rfl
  | succ n ih => simp [List.replicate_succ, ih, keepChar]

/-- Claim C10: for every input string the sanitizer's output has at most
100 characters, contains none of the characters `< > : " / \ | ? *` and
no space; and each space of the input is replaced by exactly one
underscore, so an input decomposing around a run of `n` spaces yields the
sanitized pieces joined by a run of `n` underscores (then truncated to
100 characters). -/
theorem C10_sanitize_filename (s : String) :
    (sanitize_filename s).toList.length ≤ 100 ∧
    (∀ c ∈ (sanitize_filename s).toList, keepChar c = true ∧ c ≠ ' ') ∧
    (∀ (pre : List Char) (n : Nat) (suf : List Char),
      s.toList = pre ++ List.replicate n ' ' ++ suf →
      sanitize_filename s =
        String.mk (((pre.filter keepChar).map replaceSpace ++
          List.replicate n '_' ++
          (suf.filter keepChar).map replaceSpace).take 100)) := by
  refine ⟨?_, ?_, ?_⟩
  · show (List.take 100 _).length ≤ 100
    rw [List.length_take]
    omega
  · intro c hc
    have hc2 : c ∈ (s.toList.filter keepChar).map replaceSpace :=
      List.take_subset 100 _ hc
    obtain ⟨c', hc'mem, hrepl⟩ := List.mem_map.mp hc2
    obtain ⟨-, hkeep⟩ := List.mem_filter.mp hc'mem
    subst hrepl
    by_cases hsp : c' = ' '
    · subst hsp
      refine ⟨by decide, by decide⟩
    · rw [replaceSpace, if_neg hsp]
      exact ⟨hkeep, hsp⟩
  · intro pre n suf hsplit
    unfold sanitize_filename
    rw [hsplit, List.filter_append, List.filter_append,
      filter_keepChar_replicate_space, List.map_append, List.map_append]
    have hmapr : (List.replicate n ' ').map replaceSpace = List.replicate n '_' := by
      simp [List.map_replicate, replaceSpace]
    rw [hmapr]

/-- Claim C10, witness: `"a  b?"` (a run of two spaces, one illegal
character) sanitizes to `"a__b"` - two underscores, question mark
removed. -/
theorem C10_sanitize_filename_witness :
    sanitize_filename "a  b?" = "a__b" ∧
    (sanitize_filename "a  b?").toList.length ≤ 100 := by
  have h := C10_sanitize_filename "a  b?"
  refine ⟨?_, h.1⟩
  have h3 := h.2.2 ['a'] 2 ['b', '?'] (by decide)
  exact h3.trans (by decide)
